import Mathlib

/-!
Verification of the squall chat server (github.com/rexlx/squall) against its
natural-language specification.  The definitions below are a shallow embedding
of the Go source under `src/`:

- `cmd/server/user.go` / `cmd/server/db.go` : `User`, password hashing, the
  users/rooms/messages tables and their queries;
- `cmd/server/jwt.go`                       : `GenerateJWT` / `ValidateJWT`;
- `cmd/server/middleware.go`                : `AuthInterceptor`;
- `cmd/server/grpc_impl.go`                 : `Login`, `CreateUser`, `JoinRoom`,
  `deregisterStream`, and the registry of live streams;
- `src/unnamed/part_010` (typed message plane) : `processMessage`;
- `cmd/server/db.go`                        : `PruneMessages`.

Go maps are modelled as association lists with unique keys, the SQL tables as
lists of rows, machine randomness (fresh user ids) as an explicit parameter,
wall-clock time as an explicit `Nat`/`Int` parameter, and fallible calls as
`Option`/`Except`.  External libraries (bcrypt, HMAC-SHA256) are modelled by
deterministic executable stand-ins that realise their documented contracts;
token wire serialisation is modelled as the identity (a token is its claims
together with its signature).
-/

namespace Squall

/-- Decidable equality for `Except` results, so that concrete RPC outcomes can
be settled by `decide`. -/
instance {ε α : Type} [DecidableEq ε] [DecidableEq α] : DecidableEq (Except ε α)
  | .error e, .error f =>
    if h : e = f then .isTrue (h ▸ rfl)
    else .isFalse (fun hh => h (Except.error.inj hh))
  | .error _, .ok _ => .isFalse Except.noConfusion
  | .ok _, .error _ => .isFalse Except.noConfusion
  | .ok a, .ok b =>
    if h : a = b then .isTrue (h ▸ rfl)
    else .isFalse (fun hh => h (Except.ok.inj hh))

/-- gRPC status codes used by the server (google.golang.org/grpc/codes). -/
inductive Code where
  | invalidArgument
  | unauthenticated
  | permissionDenied
  | alreadyExists
  | notFound
  | resourceExhausted
  | internal
  deriving DecidableEq, Repr

/-- Server-side user record, from `cmd/server/user.go` (struct `User`) plus the
`Role` column of `cmd/server/db.go` (`users.role`, read and written by
`GetUser`/`StoreUser` and by every handler in `grpc_impl.go`).  The telemetry
fields `Stats` and `Posts` are opaque JSON blobs never inspected by the
operations embedded here and are omitted. -/
structure User where
  rooms    : List String
  history  : List String
  id       : String
  email    : String
  password : String
  name     : String
  role     : String
  created  : Nat
  updated  : Nat
  deriving DecidableEq, Repr

/-- Outcome of `bcrypt.CompareHashAndPassword`: success, the dedicated
mismatch error `bcrypt.ErrMismatchedHashAndPassword`, or any other error
(malformed / truncated stored hash, bad cost, ...). -/
inductive BcryptOutcome where
  | ok
  | mismatch
  | badHash
  deriving DecidableEq, Repr

/-- Executable stand-in for `bcrypt.GenerateFromPassword`: a well-formed hash
is the recognisable tag `"$2a$"` followed by the password.  (Real bcrypt salts
randomly; only the contract `Compare (Generate p) p = ok` and the shape of a
well-formed hash matter to the embedded code.) -/
def bcryptGenerate (password : String) : String :=
  "$2a$" ++ password

/-- Executable stand-in for `bcrypt.CompareHashAndPassword`, faithful to its
contract: a stored value that is not a bcrypt hash at all yields an error that
is not `ErrMismatchedHashAndPassword`; a well-formed hash of a different
password yields the mismatch error; the hash of the given password succeeds. -/
def bcryptCompare (hash password : String) : BcryptOutcome :=
  if ¬ hash.data.take 4 = "$2a$".data then .badHash
  else if hash = bcryptGenerate password then .ok
  else .mismatch

/-- `User.SetPassword` from `cmd/server/user.go`: hash the input and store it.
(The Go version can only fail if bcrypt fails to generate, which the stand-in
never does.) -/
def User.SetPassword (u : User) (input : String) : User :=
  { u with password := bcryptGenerate input }

/-- `User.PasswordMatches` from `cmd/server/user.go`: `some true` models
`(true, nil)`, `some false` models `(false, nil)` (the mismatch error is
swallowed), and `none` models `(false, err)` for any other bcrypt error. -/
def User.PasswordMatches (u : User) (input : String) : Option Bool :=
  match bcryptCompare u.password input with
  | .ok => some true
  | .mismatch => some false
  | .badHash => none

/-! ### Token service (`cmd/server/jwt.go`) -/

/-- The claims carried by a squall token, from `cmd/server/jwt.go`
(`UserClaims`): the custom `user_id` claim plus the registered claims the
server sets (`iss`, `iat`, `exp`).  There is no role or email claim. -/
structure UserClaims where
  userID    : String
  issuer    : String
  issuedAt  : Nat
  expiresAt : Nat
  deriving DecidableEq, Repr

/-- A signed token: its claims plus the HMAC tag over them.  The base64/JSON
wire serialisation performed by the jwt library is modelled as the identity. -/
structure JwtToken where
  claims : UserClaims
  sig    : String
  deriving DecidableEq, Repr

/-- Executable stand-in for HMAC-SHA256 over the claims payload: a
deterministic function of the secret and the claims. -/
def hmacSig (secret : String) (c : UserClaims) : String :=
  "hmac(" ++ secret ++ "," ++ c.userID ++ "," ++ c.issuer ++ ","
    ++ toString c.issuedAt ++ "," ++ toString c.expiresAt ++ ")"

/-- `GenerateJWT` from `cmd/server/jwt.go:19`: claims are the user id, issuer
`"squall-server"`, issued-at `now` and expiry `now + 24h` (86400 s), signed
with HMAC under the process-wide secret.  Note the signature: it accepts only
the user id and the secret — no role, no email. -/
def GenerateJWT (userID : String) (secretKey : String) (now : Nat) : JwtToken :=
  let claims : UserClaims :=
    { userID := userID
      issuer := "squall-server"
      issuedAt := now
      expiresAt := now + 86400 }
  { claims := claims, sig := hmacSig secretKey claims }

/-- `ValidateJWT` from `cmd/server/jwt.go:34`: check the HMAC tag against the
secret and the expiry against the current time (jwt/v5 rejects a token whose
`exp` is not in the future); on success return the claims. -/
def ValidateJWT (token : JwtToken) (secretKey : String) (now : Nat) :
    Option UserClaims :=
  if token.sig = hmacSig secretKey token.claims ∧ now < token.claims.expiresAt then
    some token.claims
  else
    none

/-- The spec names the mint operation `Mint(user_id, role, email) → token`.
Applying that signature to the source is forced to discard the role and the
email: `GenerateJWT` (`cmd/server/jwt.go:19`) accepts only the user id and the
secret, and `UserClaims` has no role or email field. -/
def Mint (userID role email secretKey : String) (now : Nat) : JwtToken :=
  let _ := role
  let _ := email
  GenerateJWT userID secretKey now

/-! ### Persistence (`cmd/server/db.go`) -/

/-- A chat message as persisted/relayed, from `internal` (`internal.Message`,
`src/unnamed/part_000`): all fields are strings, `Time` included. -/
structure Message where
  roomID        : String
  userID        : String
  email         : String
  message       : String
  time          : String
  replyTo       : String
  initialVector : String
  hotSauce      : String
  deriving DecidableEq, Repr

/-- A row of the `messages` table (`cmd/server/db.go`, `CreateTables`): the
`SERIAL PRIMARY KEY` insertion id plus the message columns. -/
structure MsgRow where
  id   : Nat
  body : Message
  deriving DecidableEq, Repr

/-- Room metadata as stored in the `rooms` table (`cmd/server/db.go`):
`StoreRoom` persists only `id`, `name` and `max_messages`. -/
structure RoomMeta where
  id          : String
  name        : String
  maxMessages : Nat
  deriving DecidableEq, Repr

/-- A hydrated room as returned by `GetRoom`: metadata plus the newest ≤ 50
messages, oldest-first (`Room` in `grpc_impl.go` usage). -/
structure Room where
  id          : String
  name        : String
  maxMessages : Nat
  messages    : List Message
  deriving DecidableEq, Repr

/-- In-memory model of the PostgreSQL store behind the `Database` interface
(`cmd/server/db.go`): the three tables.  `users.id` and `users.email` are
unique, `rooms.id` is unique and `messages.id` is the serial insertion id. -/
structure DBState where
  users : List User
  rooms : List RoomMeta
  msgs  : List MsgRow
  deriving DecidableEq, Repr

/-- `GetUser` (`cmd/server/db.go:153`): `SELECT ... FROM users WHERE id = $1`;
`none` models `sql.ErrNoRows`. -/
def DBState.GetUser (db : DBState) (userid : String) : Option User :=
  db.users.find? (fun u => u.id = userid)

/-- `GetUserByEmail` (`cmd/server/db.go:255`): select the id by email, then
reuse `GetUser`. -/
def DBState.GetUserByEmail (db : DBState) (email : String) : Option User :=
  match db.users.find? (fun u => u.email = email) with
  | none => none
  | some u => db.GetUser u.id

/-- `StoreUser` (`cmd/server/db.go:174`): upsert by id
(`ON CONFLICT (id) DO UPDATE`). -/
def DBState.StoreUser (db : DBState) (u : User) : DBState :=
  if db.users.any (fun v => v.id = u.id) then
    { db with users := db.users.map (fun v => if v.id = u.id then u else v) }
  else
    { db with users := db.users ++ [u] }

/-- Insertion-id-descending sort used by the SQL `ORDER BY id DESC` clauses.
`id` is a `SERIAL PRIMARY KEY`, so ids are distinct and any sorting algorithm
yields the unique descending enumeration. -/
def sortRowsDesc (rows : List MsgRow) : List MsgRow :=
  rows.insertionSort (fun a b => b.id ≤ a.id)

instance : IsTotal MsgRow (fun a b => b.id ≤ a.id) :=
  ⟨fun a b => le_total b.id a.id⟩

instance : IsTrans MsgRow (fun a b => b.id ≤ a.id) :=
  ⟨fun _ _ _ h1 h2 => le_trans h2 h1⟩

/-- The message-hydration query of `GetRoom` (`cmd/server/db.go:214`):
`SELECT ... WHERE room_id = $1 ORDER BY id DESC LIMIT 50`, each scanned row
prepended, so the result is the newest ≤ 50 messages oldest-first. -/
def DBState.HydrateMessages (db : DBState) (roomid : String) : List Message :=
  (((sortRowsDesc (db.msgs.filter (fun r => r.body.roomID = roomid))).take 50).reverse).map
    (fun r => r.body)

/-- `GetRoom` (`cmd/server/db.go:198`): fetch the metadata row (`none` models
`sql.ErrNoRows`), then hydrate the newest ≤ 50 messages. -/
def DBState.GetRoom (db : DBState) (roomid : String) : Option Room :=
  match db.rooms.find? (fun r => r.id = roomid) with
  | none => none
  | some meta =>
    some { id := meta.id, name := meta.name, maxMessages := meta.maxMessages,
           messages := db.HydrateMessages roomid }

/-- `StoreRoom` (`cmd/server/db.go:239`): upsert the metadata by id; the
hydrated messages are not touched. -/
def DBState.StoreRoom (db : DBState) (r : Room) : DBState :=
  let meta : RoomMeta := { id := r.id, name := r.name, maxMessages := r.maxMessages }
  if db.rooms.any (fun v => v.id = r.id) then
    { db with rooms := db.rooms.map (fun v => if v.id = r.id then meta else v) }
  else
    { db with rooms := db.rooms ++ [meta] }

/-- `StoreMessage` (`cmd/server/db.go:107`): a plain `INSERT`, the serial id
being one more than the largest id so far. -/
def DBState.StoreMessage (db : DBState) (roomid : String) (m : Message) : DBState :=
  let nextId := (db.msgs.map (fun r => r.id)).foldr max 0 + 1
  { db with msgs := db.msgs ++ [{ id := nextId, body := { m with roomID := roomid } }] }

/-! ### Pruning (`cmd/server/db.go:119`, `PruneMessages`) -/

/-- The id set kept for one room by the prune statement's subquery:
`SELECT id FROM messages WHERE room_id = $1 ORDER BY id DESC LIMIT keep`. -/
def keptIds (table : List MsgRow) (room : String) (keep : Nat) : List Nat :=
  ((sortRowsDesc (table.filter (fun r => r.body.roomID = room))).take keep).map
    MsgRow.id

/-- One per-room `DELETE FROM messages WHERE room_id = $1 AND id NOT IN
(subquery)` of `PruneMessages`. -/
def pruneRoom (table : List MsgRow) (room : String) (keep : Nat) : List MsgRow :=
  table.filter (fun r => ¬ (r.body.roomID = room ∧ r.id ∉ keptIds table room keep))

/-- The room enumeration of `PruneMessages`:
`SELECT DISTINCT room_id FROM messages`. -/
def distinctRooms (table : List MsgRow) : List String :=
  (table.map (fun r => r.body.roomID)).dedup

/-- `PruneMessages` (`cmd/server/db.go:119`): enumerate the distinct rooms of
the messages table, then run the bounded-retention `DELETE` for each room in
turn.  A failing per-room `Exec` is logged and skipped (`fails` says which
rooms' statements fail); the pass always continues with the remaining rooms
and the function returns `nil`. -/
def PruneMessages (table : List MsgRow) (keep : Nat) (fails : String → Bool) :
    List MsgRow :=
  (distinctRooms table).foldl
    (fun t room => if fails room then t else pruneRoom t room keep) table

/-! ### Unary RPCs (`cmd/server/grpc_impl.go`) -/

/-- Response of the `Login` RPC: the user payload and the bearer token. -/
structure LoginResponse where
  user  : User
  token : JwtToken
  deriving DecidableEq, Repr

/-- `Login` from `cmd/server/grpc_impl.go:33`.  Empty credentials are
`INVALID_ARGUMENT`; an unknown email is `UNAUTHENTICATED`; a bcrypt error that
is not the mismatch error is `INTERNAL` (`"internal auth error"`); a wrong
password is `UNAUTHENTICATED`; then the user is re-stored, a token minted and
the pair returned.  (The login-counter telemetry appended to the in-memory
stats map is server-local and not modelled.) -/
def Login (db : DBState) (email password : String) (secretKey : String)
    (now : Nat) : Except Code (LoginResponse × DBState) :=
  if email = "" ∨ password = "" then .error .invalidArgument
  else
    match db.GetUserByEmail email with
    | none => .error .unauthenticated
    | some user =>
      match user.PasswordMatches password with
      | none => .error .internal
      | some false => .error .unauthenticated
      | some true =>
        let db' := db.StoreUser user
        .ok ({ user := user, token := GenerateJWT user.id secretKey now }, db')

/-- Request of the `CreateUser` RPC (`pb.CreateUserRequest`). -/
structure CreateUserRequest where
  email     : String
  password  : String
  firstName : String
  role      : String
  deriving DecidableEq, Repr

/-- Response of the `CreateUser` RPC. -/
structure CreateUserResponse where
  success : Bool
  userId  : String
  message : String
  deriving DecidableEq, Repr

/-- The user object built by `CreateUser` (`grpc_impl.go:98-121`): fresh id,
requested email and first name, role `"user"` unless the requested role is
exactly `"admin"`, timestamps set to now, password hashed via
`SetPassword`. -/
def newUserOf (req : CreateUserRequest) (newID : String) (now : Nat) : User :=
  let newRole := if req.role = "admin" then "admin" else "user"
  let newUser : User :=
    { rooms := [], history := [], id := newID, email := req.email,
      password := "", name := req.firstName, role := newRole,
      created := now, updated := now }
  newUser.SetPassword req.password

/-- Construction and storage of the new user (`grpc_impl.go:98-134`): the
success path shared by both arms of the duplicate check. -/
def createUserStore (db : DBState) (req : CreateUserRequest) (newID : String)
    (now : Nat) : Except Code (CreateUserResponse × DBState) :=
  let newUser := newUserOf req newID now
  .ok ({ success := true, userId := newUser.id,
         message := "User created successfully" }, db.StoreUser newUser)

/-- `CreateUser` from `cmd/server/grpc_impl.go:76`.  The caller (injected by
the auth middleware) must be an admin; empty email/password is
`INVALID_ARGUMENT`; an existing user with the email is `ALREADY_EXISTS`; the
fresh 128-bit hex id produced by `crypto/rand` is the explicit `newID`
parameter; timestamps are the explicit `now`. -/
def CreateUser (db : DBState) (caller : User) (req : CreateUserRequest)
    (newID : String) (now : Nat) :
    Except Code (CreateUserResponse × DBState) :=
  if caller.role ≠ "admin" then .error .permissionDenied
  else if req.email = "" ∨ req.password = "" then .error .invalidArgument
  else
    match db.GetUserByEmail req.email with
    | some existingUser =>
      if existingUser.id ≠ "" then .error .alreadyExists
      else createUserStore db req newID now
    | none => createUserStore db req newID now

/-- Request of the `JoinRoom` RPC (`pb.JoinRoomRequest`). -/
structure JoinRoomRequest where
  email    : String
  roomName : String
  deriving DecidableEq, Repr

/-- Response of the `JoinRoom` RPC (`pb.RoomResponse`): room id and name, a
success flag, and the hydrated message history of the room. -/
structure RoomResponse where
  roomId  : String
  name    : String
  success : Bool
  history : List Message
  deriving DecidableEq, Repr

/-- The history update of `JoinRoom` (`cmd/server/grpc_impl.go:162-170`):
filter out every existing occurrence of the room name, then append it at the
end (most recent last).  There is no length cap. -/
def joinRoomHistory (history : List String) (roomName : String) : List String :=
  (history.filter (fun h => h ≠ roomName)) ++ [roomName]

/-- The saved-rooms update of `JoinRoom` (`cmd/server/grpc_impl.go:172-182`):
append the room name only if not already present. -/
def joinRoomRooms (rooms : List String) (roomName : String) : List String :=
  if rooms.any (fun r => r = roomName) then rooms else rooms ++ [roomName]

/-- `JoinRoom` from `cmd/server/grpc_impl.go:138`.  Fetch the room, creating
it with defaults (`max_messages = 1000`) if absent; build the history payload
from the hydrated messages; if `req.email` resolves to a user, dedup-append
the room to the user's `history`, add it to `rooms` if missing and re-store
the user (a store failure is only logged); always answer `success = true`
with the room's id and name. -/
def JoinRoom (db : DBState) (req : JoinRoomRequest) :
    Except Code (RoomResponse × DBState) :=
  let roomName := req.roomName
  let (room, db) :=
    match db.GetRoom roomName with
    | some room => (room, db)
    | none =>
      let newRoom : Room :=
        { id := roomName, name := roomName, maxMessages := 1000, messages := [] }
      (newRoom, db.StoreRoom newRoom)
  let history := room.messages
  let db :=
    match db.GetUserByEmail req.email with
    | none => db
    | some user =>
      let user := { user with history := joinRoomHistory user.history roomName,
                              rooms := joinRoomRooms user.rooms roomName }
      db.StoreUser user
  .ok ({ roomId := room.id, name := room.name, success := true,
         history := history }, db)

/-! ### Auth interceptor (`cmd/server/middleware.go`) -/

/-- `AuthInterceptor` from `cmd/server/middleware.go:18` (the stream variant
`StreamAuthInterceptor`, `middleware.go:68`, performs the same steps before
wrapping the stream).  `method` is `info.FullMethod`; `authValues` is the
`authorization` metadata (`none` models absent metadata); the token-string
trimming of an optional `"Bearer "` tag is absorbed by the identity wire
model.  The result is the context seen by the handler: `.ok none` when auth
is skipped for `Login`, `.ok (some u)` when the user `u` was injected.  Note
step 4 of the source: after validating the token it loads the user from the
database (`DB.GetUser(claims.UserID)`) and injects that record. -/
def AuthInterceptor (getUserById : String → Option User) (secretKey : String)
    (now : Nat) (method : String) (authValues : Option (List JwtToken)) :
    Except Code (Option User) :=
  if method = "/chat.ChatService/Login" then .ok none
  else
    match authValues with
    | none => .error .unauthenticated
    | some values =>
      match values with
      | [] => .error .unauthenticated
      | token :: _ =>
        match ValidateJWT token secretKey now with
        | none => .error .unauthenticated
        | some claims =>
          match getUserById claims.userID with
          | none => .error .unauthenticated
          | some user => .ok (some user)

/-! ### Stream registry (`cmd/server/grpc_impl.go:236-253`) -/

/-- The two-level registry `room_id → user_id → stream handle`
(`GrpcServer.streams`).  Go maps are modelled as association lists whose keys
are unique; `H` is the opaque subscriber-handle type
(`pb.ChatService_StreamServer`). -/
abbrev Registry (H : Type) := List (String × List (String × H))

/-- `registerStream` (`cmd/server/grpc_impl.go:236`): create the inner map if
the room is new, then insert/displace the handle under `(room, user)`. -/
def registerStream {H : Type} (reg : Registry H) (roomID userID : String)
    (handle : H) : Registry H :=
  if reg.any (fun e => e.1 = roomID) then
    reg.map (fun e =>
      if e.1 = roomID then
        (e.1, if e.2.any (fun p => p.1 = userID) then
                e.2.map (fun p => if p.1 = userID then (p.1, handle) else p)
              else e.2 ++ [(userID, handle)])
      else e)
  else
    reg ++ [(roomID, [(userID, handle)])]

/-- `deregisterStream` (`cmd/server/grpc_impl.go:246`): if the room has an
inner map, delete the user's entry from it.  The room entry itself is kept,
even when the inner map becomes empty. -/
def deregisterStream {H : Type} (reg : Registry H) (roomID userID : String) :
    Registry H :=
  if reg.any (fun e => e.1 = roomID) then
    reg.map (fun e =>
      if e.1 = roomID then (e.1, e.2.filter (fun p => p.1 ≠ userID)) else e)
  else reg

/-- Lookup of the handle registered under `(room, user)`. -/
def regLookup {H : Type} (reg : Registry H) (roomID userID : String) :
    Option H :=
  (reg.find? (fun e => e.1 = roomID)).bind
    (fun e => (e.2.find? (fun p => p.1 = userID)).map (fun p => p.2))

/-- The set of room keys present in the top-level map. -/
def regRoomKeys {H : Type} (reg : Registry H) : List String :=
  reg.map (fun e => e.1)

/-! ### Message plane (`src/unnamed/part_010:658`, `processMessage`) -/

/-- Modelled from the spec: the wire-level message-type discriminator of a
`ChatMessage` frame (`type ∈ {TEXT = 0, FILE_CONTROL = 1, FILE_CHUNK = 2}`).
The protobuf definitions (`github.com/rexlx/squall/proto`) are not under
`src/`; their shape is fixed by section 6 of the spec and by the accessors
used in `src/unnamed/part_010` and `src/unnamed/part_001`. -/
inductive MsgType where
  | text
  | fileControl
  | fileChunk
  deriving DecidableEq, Repr

/-- Modelled from the spec: the `file_meta` descriptor of a `FILE_CONTROL`
frame (`{file_name, file_hash, action}`). -/
structure FileMeta where
  fileName : String
  fileHash : String
  action   : String
  deriving DecidableEq, Repr

/-- Modelled from the spec: the discriminated payload of a `ChatMessage`
(exactly one of `message_content`, `file_meta`, `data_chunk`). -/
inductive Payload where
  | messageContent (s : String)
  | fileMeta (m : FileMeta)
  | dataChunk (b : List Nat)
  deriving DecidableEq, Repr

/-- Modelled from the spec: the wire `ChatMessage` frame (proto definitions
are not under `src/`): routing and crypto envelope fields, the server-stamped
timestamp, the type discriminator and the discriminated payload. -/
structure ChatMessage where
  roomId    : String
  userId    : String
  email     : String
  timestamp : Int
  replyTo   : String
  iv        : String
  hotSauce  : String
  type      : MsgType
  payload   : Payload
  deriving DecidableEq, Repr

/-- The protobuf oneof accessor `GetMessageContent`: the string payload, or
the zero value `""` for the other branches. -/
def ChatMessage.GetMessageContent (m : ChatMessage) : String :=
  match m.payload with
  | .messageContent s => s
  | _ => ""

/-- The protobuf oneof accessor `GetFileMeta`: the descriptor, or `nil`. -/
def ChatMessage.GetFileMeta (m : ChatMessage) : Option FileMeta :=
  match m.payload with
  | .fileMeta meta => some meta
  | _ => none

/-- One entry of the bounded save queue (`SaveRequest`,
`src/unnamed/part_008`). -/
structure SaveRequest where
  roomID  : String
  message : Message
  deriving DecidableEq, Repr

/-- The save queue: a bounded channel (`make(chan SaveRequest, 100)` in
`NewServer`, `src/unnamed/part_008`) modelled as its buffered contents plus
its capacity. -/
structure SaveQueue where
  buffer   : List SaveRequest
  capacity : Nat
  deriving DecidableEq, Repr

/-- The non-blocking enqueue (`select { case queue <- req: default: ... }`):
the send succeeds exactly when the buffer has room; otherwise the record is
dropped (and a queue-full warning logged). -/
def SaveQueue.enqueueNonBlocking (q : SaveQueue) (req : SaveRequest) : SaveQueue :=
  if q.buffer.length < q.capacity then { q with buffer := q.buffer ++ [req] } else q

/-- `processMessage` from `src/unnamed/part_010:658` (the typed message
plane; the variant at `cmd/server/grpc_impl.go:302` predates the typed wire
format and has no frame-type discriminator): stamp the frame with server
time, broadcast it, and — unless the frame is a `FILE_CHUNK` — build the
internal record (`TEXT`: the opaque ciphertext; `FILE_CONTROL`: the compact
`FILE:<name>|HASH:<hash>|ACTION:<action>` descriptor) and enqueue it
non-blockingly.  The result is the broadcast frame and the updated queue. -/
def processMessage (user : User) (msg : ChatMessage) (now : Int)
    (queue : SaveQueue) : ChatMessage × SaveQueue :=
  let msg := { msg with timestamp := now }
  -- `s.Broadcast(msg)` sends the stamped frame to the room's subscribers.
  if msg.type = .fileChunk then (msg, queue)
  else
    let dbContent :=
      match msg.type with
      | .text => msg.GetMessageContent
      | .fileControl =>
        match msg.GetFileMeta with
        | some meta =>
          "FILE:" ++ meta.fileName ++ "|HASH:" ++ meta.fileHash
            ++ "|ACTION:" ++ meta.action
        | none => ""
      | .fileChunk => ""
    let internalMsg : Message :=
      { roomID := msg.roomId, userID := user.id, email := user.email,
        message := dbContent, time := toString msg.timestamp,
        replyTo := "", initialVector := msg.iv, hotSauce := msg.hotSauce }
    (msg, queue.enqueueNonBlocking { roomID := msg.roomId, message := internalMsg })

/-! ### Concrete fixtures used by witnesses and counterexamples -/

/-- A message-table row with the given insertion id and room, fixed contents. -/
def mkRow (i : Nat) (room : String) : MsgRow :=
  { id := i,
    body := { roomID := room, userID := "", email := "", message := "m",
              time := "", replyTo := "", initialVector := "", hotSauce := "" } }

/-- A user whose join history is `["a", "b", "c"]`. -/
def fxUserABC : User :=
  { rooms := [], history := ["a", "b", "c"], id := "u1", email := "u@x",
    password := "", name := "", role := "user", created := 0, updated := 0 }

/-- Store holding exactly `fxUserABC`. -/
def fxDbABC : DBState := { users := [fxUserABC], rooms := [], msgs := [] }

/-- A user whose stored password column is not a bcrypt hash at all. -/
def fxBadHashUser : User :=
  { rooms := [], history := [], id := "u1", email := "e", password := "nothash",
    name := "", role := "user", created := 0, updated := 0 }

/-- Store holding exactly `fxBadHashUser`. -/
def fxBadHashDb : DBState := { users := [fxBadHashUser], rooms := [], msgs := [] }

/-- A user with a well-formed stored hash of the password `"pw"`. -/
def fxGoodUser : User := fxBadHashUser.SetPassword "pw"

/-- Store holding exactly `fxGoodUser`. -/
def fxGoodDb : DBState := { users := [fxGoodUser], rooms := [], msgs := [] }

/-- Database record for user id `"u1"` with role `"admin"`. -/
def fxAdminRec : User :=
  { rooms := [], history := [], id := "u1", email := "a@x", password := "",
    name := "", role := "admin", created := 0, updated := 0 }

/-- Database record for user id `"u1"` with role `"user"`: the same identity
as `fxAdminRec` under a different database state. -/
def fxPlainRec : User :=
  { rooms := [], history := [], id := "u1", email := "a@x", password := "",
    name := "", role := "user", created := 0, updated := 0 }

/-- An admin caller, as injected into the context by the middleware. -/
def fxAdminCaller : User :=
  { rooms := [], history := [], id := "adm", email := "root@x", password := "",
    name := "", role := "admin", created := 0, updated := 0 }

/-- A `TEXT` frame. -/
def fxTextFrame : ChatMessage :=
  { roomId := "r1", userId := "u1", email := "u@x", timestamp := 0,
    replyTo := "", iv := "AA==", hotSauce := "k1", type := .text,
    payload := .messageContent "aGVsbG8=" }

/-- A `FILE_CHUNK` frame carrying a binary chunk. -/
def fxChunkFrame : ChatMessage :=
  { roomId := "r1", userId := "u1", email := "u@x", timestamp := 0,
    replyTo := "", iv := "AA==", hotSauce := "k1", type := .fileChunk,
    payload := .dataChunk [0, 1, 2, 3] }

/-- Sequencing of `JoinRoom` calls for one email: each call's updated store
feeds the next call. -/
def joinSeq (db : DBState) (email : String) (rooms : List String) : DBState :=
  rooms.foldl
    (fun d r =>
      match JoinRoom d { email := email, roomName := r } with
      | .ok (_, d') => d'
      | .error _ => d) db

/-- Eleven distinct room names. -/
def fxElevenRooms : List String :=
  ["r01", "r02", "r03", "r04", "r05", "r06", "r07", "r08", "r09", "r10", "r11"]

/-! ## Theorems -/

/-- Verifying a freshly minted token with the right secret succeeds while the
token is unexpired and returns exactly the claims `GenerateJWT` set. -/
theorem validateJWT_generateJWT (u secret : String) (iat now : Nat)
    (hexp : now < iat + 86400) :
    ValidateJWT (GenerateJWT u secret iat) secret now =
      some { userID := u, issuer := "squall-server", issuedAt := iat,
             expiresAt := iat + 86400 } := by
  simp [ValidateJWT, GenerateJWT, hexp]

/-- Claim C1.  For every frame processed by the message plane's
`processMessage`: a `FILE_CHUNK` frame is never enqueued to the save queue
(the queue is returned untouched), while for every other frame type a record
is enqueued whenever the bounded queue has room.  The broadcast/enqueue logic
is per-frame and per-room, so nothing about other frames is affected. -/
theorem C1_file_chunk_never_enqueued (user : User) (msg : ChatMessage)
    (now : Int) (queue : SaveQueue) :
    (msg.type = .fileChunk → (processMessage user msg now queue).2 = queue) ∧
    (msg.type ≠ .fileChunk → queue.buffer.length < queue.capacity →
      ((processMessage user msg now queue).2).buffer.length
        = queue.buffer.length + 1) := by
  constructor
  · intro h
    simp [processMessage, h]
  · intro h hroom
    cases htype : msg.type with
    | fileChunk => exact absurd htype h
    | text =>
      simp [processMessage, htype, SaveQueue.enqueueNonBlocking, if_pos hroom]
    | fileControl =>
      simp [processMessage, htype, SaveQueue.enqueueNonBlocking, if_pos hroom]

/-- Witness for C1: a concrete `FILE_CHUNK` frame leaves the empty queue
empty, while a concrete `TEXT` frame grows it by one record. -/
theorem C1_file_chunk_never_enqueued_witness :
    (processMessage fxAdminRec fxChunkFrame 5 { buffer := [], capacity := 100 }).2
      = { buffer := [], capacity := 100 } ∧
    ((processMessage fxAdminRec fxTextFrame 5 { buffer := [], capacity := 100 }).2).buffer.length
      = 0 + 1 :=
  ⟨(C1_file_chunk_never_enqueued fxAdminRec fxChunkFrame 5
      { buffer := [], capacity := 100 }).1 rfl,
   (C1_file_chunk_never_enqueued fxAdminRec fxTextFrame 5
      { buffer := [], capacity := 100 }).2 (by decide) (by decide)⟩

/-- Claim C4, counterexample.  The claim says `Verify (Mint (uid, role,
email))` returns the minted `user_id`, `role` and `email`.  But the source
`GenerateJWT` (`cmd/server/jwt.go:19`) accepts only the user id and the
secret, and `UserClaims` has no role or email claim, so `Mint` produces the
same token for different roles and emails — no verifier can return the minted
role/email pair, here at the concrete inputs `("u1","admin","a@x")` and
`("u1","user","b@y")`. -/
theorem C4_mint_verify_counterexample :
    ¬ ∃ f : JwtToken → String × String,
        f (Mint "u1" "admin" "a@x" "k" 0) = ("admin", "a@x") ∧
        f (Mint "u1" "user" "b@y" "k" 0) = ("user", "b@y") := by
  rintro ⟨f, h1, h2⟩
  have hsame : Mint "u1" "admin" "a@x" "k" 0 = Mint "u1" "user" "b@y" "k" 0 := rfl
  rw [hsame, h2] at h1
  simp at h1

/-- Claim C4, amended.  Verifying a token produced by `GenerateJWT(user_id)`
succeeds (while unexpired, under the same secret) and returns claims whose
`user_id` equals the minted one, modulo the `iat`/`exp` timestamps; no role
or email is carried by the token. -/
theorem C4_mint_verify_roundtrip (u secret : String) (iat now : Nat)
    (hexp : now < iat + 86400) :
    (ValidateJWT (GenerateJWT u secret iat) secret now).map UserClaims.userID
      = some u := by
  rw [validateJWT_generateJWT u secret iat now hexp]
  rfl

/-- Witness for C4's amended theorem at concrete inputs. -/
theorem C4_mint_verify_roundtrip_witness :
    (ValidateJWT (GenerateJWT "u1" "k" 0) "k" 5).map UserClaims.userID
      = some "u1" :=
  C4_mint_verify_roundtrip "u1" "k" 0 5 (by decide)

/-- Claim C8.  Starting from a stored user whose history is
`["a", "b", "c"]`, `JoinRoom(user, "b")` stores history `["a", "c", "b"]`:
length still 3, `"b"` moved to the tail, the relative order of `"a"` and
`"c"` preserved. -/
theorem C8_join_room_dedup_example :
    ((JoinRoom fxDbABC { email := "u@x", roomName := "b" }).toOption.bind
      (fun p => (p.2.GetUserByEmail "u@x").map User.history))
      = some ["a", "c", "b"] := by
  decide

/-- Claim C2, counterexample.  The same valid token under two database states
that disagree on the role of user `"u1"` leads the interceptor to attach two
different identities: the attached `User` is read from the database
(`middleware.go:47`, `DB.GetUser(claims.UserID)`), not built from the claims,
so it does depend on database state. -/
theorem C2_auth_stateless_counterexample :
    AuthInterceptor (fun uid => if uid = "u1" then some fxAdminRec else none)
      "k" 5 "/chat.ChatService/CreateUser" (some [GenerateJWT "u1" "k" 0])
      = .ok (some fxAdminRec) ∧
    AuthInterceptor (fun uid => if uid = "u1" then some fxPlainRec else none)
      "k" 5 "/chat.ChatService/CreateUser" (some [GenerateJWT "u1" "k" 0])
      = .ok (some fxPlainRec) ∧
    fxAdminRec ≠ fxPlainRec :=
  ⟨by rfl, by rfl, by decide⟩

/-- Claim C2, amended.  For every authenticated (non-`Login`) RPC carrying a
token minted for `uid` that is still unexpired, the interceptor performs a
database read for `uid` and attaches exactly the database's record for `uid`
(rejecting with `UNAUTHENTICATED` when the record is gone); the attached
identity therefore reflects the current database state. -/
theorem C2_auth_attaches_db_record (g : String → Option User)
    (secret : String) (now : Nat) (method : String) (uid : String) (iat : Nat)
    (hm : method ≠ "/chat.ChatService/Login") (hexp : now < iat + 86400) :
    AuthInterceptor g secret now method (some [GenerateJWT uid secret iat])
      = (g uid).elim (.error .unauthenticated) (fun u => .ok (some u)) := by
  cases hg : g uid <;>
    simp [AuthInterceptor, hm, validateJWT_generateJWT uid secret iat now hexp, hg]

/-- Witness for C2's amended theorem: with the record present the interceptor
attaches it; with it absent the call is rejected. -/
theorem C2_auth_attaches_db_record_witness :
    AuthInterceptor (fun uid => if uid = "u1" then some fxAdminRec else none)
      "k" 5 "/chat.ChatService/CreateUser" (some [GenerateJWT "u1" "k" 0])
      = .ok (some fxAdminRec) ∧
    AuthInterceptor (fun _ => none)
      "k" 5 "/chat.ChatService/CreateUser" (some [GenerateJWT "u1" "k" 0])
      = .error .unauthenticated :=
  ⟨by rw [C2_auth_attaches_db_record _ "k" 5 _ "u1" 0 (by decide) (by decide)]; rfl,
   by rw [C2_auth_attaches_db_record _ "k" 5 _ "u1" 0 (by decide) (by decide)]; rfl⟩

/-- Claim C5, counterexample.  A login against a stored password column that
is not a bcrypt hash (`bcrypt.CompareHashAndPassword` returns an error other
than the mismatch error) surfaces `INTERNAL` (`grpc_impl.go:45`), not
`UNAUTHENTICATED`: the three failure causes are distinguishable after all. -/
theorem C5_login_status_counterexample :
    Login fxBadHashDb "e" "pw" "k" 0 = .error .internal ∧
    ("e" : String) ≠ "" ∧ ("pw" : String) ≠ "" ∧
    Code.internal ≠ Code.unauthenticated :=
  ⟨by decide, by decide, by decide, by decide⟩

/-- Claim C5, amended.  For non-empty credentials, an unknown email and a
well-formed-hash password mismatch both surface the same `UNAUTHENTICATED`
status (no user enumeration between those two causes); a malformed stored
hash, however, surfaces `INTERNAL`. -/
theorem C5_login_failure_statuses (db : DBState)
    (email password secret : String) (now : Nat)
    (hemail : email ≠ "") (hpw : password ≠ "") :
    (db.GetUserByEmail email = none →
      Login db email password secret now = .error .unauthenticated) ∧
    (∀ u, db.GetUserByEmail email = some u →
      bcryptCompare u.password password = .mismatch →
      Login db email password secret now = .error .unauthenticated) := by
  constructor
  · intro h
    simp [Login, hemail, hpw, h]
  · intro u hu hcmp
    simp [Login, hemail, hpw, hu, User.PasswordMatches, hcmp]

/-- Witness for C5's amended theorem: unknown email and wrong password at
concrete inputs, both `UNAUTHENTICATED`. -/
theorem C5_login_failure_statuses_witness :
    Login fxGoodDb "x" "pw" "k" 0 = .error .unauthenticated ∧
    Login fxGoodDb "e" "wrong" "k" 0 = .error .unauthenticated :=
  ⟨(C5_login_failure_statuses fxGoodDb "x" "pw" "k" 0 (by decide) (by decide)).1
     (by decide),
   (C5_login_failure_statuses fxGoodDb "e" "wrong" "k" 0 (by decide) (by decide)).2
     fxGoodUser (by decide) (by decide)⟩

/-- The per-entry update performed by `deregisterStream` never leaves a
`(room, user)` hit: for the targeted room the user's pair is filtered out of
the inner list, and every other entry keeps a key different from the room. -/
theorem regLookup_mapDereg {H : Type} (l : Registry H) (roomID userID : String) :
    regLookup
      (l.map (fun e =>
        if e.1 = roomID then (e.1, e.2.filter (fun p => p.1 ≠ userID)) else e))
      roomID userID = none := by
  induction l with
  | nil => rfl
  | cons e es ih =>
    by_cases he : e.1 = roomID
    · simp [regLookup, if_pos he, List.find?_cons, he]
    · simpa [regLookup, if_neg he, List.find?_cons, he] using ih

/-- After `deregisterStream` the `(room, user)` pair is gone. -/
theorem deregister_lookup {H : Type} (reg : Registry H) (roomID userID : String) :
    regLookup (deregisterStream reg roomID userID) roomID userID = none := by
  unfold deregisterStream
  split
  · exact regLookup_mapDereg reg roomID userID
  · next h =>
    simp only [List.any_eq_true, decide_eq_true_eq, not_exists] at h
    unfold regLookup
    rw [List.find?_eq_none.mpr, Option.none_bind]
    intro e hmem
    simp only [decide_eq_true_eq]
    exact fun hk => (h e) ⟨hmem, hk⟩

/-- `deregisterStream` leaves the top-level room keys untouched. -/
theorem deregister_keys {H : Type} (reg : Registry H) (roomID userID : String) :
    regRoomKeys (deregisterStream reg roomID userID) = regRoomKeys reg := by
  unfold deregisterStream
  split
  · unfold regRoomKeys
    rw [List.map_map]
    apply List.map_congr_left
    intro e _
    by_cases he : e.1 = roomID <;> simp [Function.comp, he]
  · rfl

/-- Claim C6, counterexample.  Deregistering the sole subscriber of room
`"r1"` leaves the registry as `[("r1", [])]`: the inner map became empty, yet
the `"r1"` entry is still present — `deregisterStream`
(`grpc_impl.go:246-253`) never drops the room entry, contradicting the
claim's "if the removal leaves the room's inner map empty then the room_id
entry itself is removed". -/
theorem C6_deregister_counterexample :
    deregisterStream [("r1", [("u1", (0 : Nat))])] "r1" "u1" = [("r1", [])] ∧
    regRoomKeys (deregisterStream [("r1", [("u1", (0 : Nat))])] "r1" "u1")
      = ["r1"] :=
  ⟨by decide, by decide⟩

/-- Claim C6, amended.  After `Deregister(room_id, user_id)` the pair is
absent from the registry; the room's top-level entry, however, is always
retained (the set of room keys is unchanged), even when its inner map becomes
empty. -/
theorem C6_deregister_removes_pair {H : Type} (reg : Registry H)
    (roomID userID : String) :
    regLookup (deregisterStream reg roomID userID) roomID userID = none ∧
    regRoomKeys (deregisterStream reg roomID userID) = regRoomKeys reg :=
  ⟨deregister_lookup reg roomID userID, deregister_keys reg roomID userID⟩

/-- Replacing, in a table, every row whose key is `k` by the row `u` (which
has key `k`) makes the key-`k` lookup return `u`, provided some row had key
`k`: the upsert-then-lookup pattern shared by `StoreUser` and `StoreRoom`. -/
theorem find?_map_upsert {α : Type} (key : α → String) (k : String)
    (l : List α) (u : α) (hu : key u = k) (h : ∃ x ∈ l, key x = k) :
    (l.map (fun v => if key v = k then u else v)).find?
      (fun v => key v = k) = some u := by
  induction l with
  | nil => simp at h
  | cons v vs ih =>
    by_cases hv : key v = k
    · simp [List.find?_cons, hv, hu]
    · have h' : ∃ x ∈ vs, key x = k := by
        rcases h with ⟨x, hx, hid⟩
        rcases List.mem_cons.mp hx with rfl | hx'
        · exact absurd hid hv
        · exact ⟨x, hx', hid⟩
      simpa [List.find?_cons, hv] using ih h'

/-- `StoreUser` followed by `GetUser` of the stored id yields the stored
record. -/
theorem storeUser_getUser (db : DBState) (u : User) :
    (db.StoreUser u).GetUser u.id = some u := by
  unfold DBState.StoreUser DBState.GetUser
  split
  · next h =>
    simp only [List.any_eq_true, decide_eq_true_eq] at h
    exact find?_map_upsert User.id u.id db.users u rfl h
  · next h =>
    simp only
    rw [List.find?_append]
    have hnone : db.users.find? (fun v => v.id = u.id) = none := by
      rw [List.find?_eq_none.mpr]
      intro v hv
      simp only [decide_eq_true_eq]
      intro hid
      exact h (List.any_eq_true.mpr ⟨v, hv, by simpa using hid⟩)
    simp [hnone, List.find?_cons]

/-- Claim C9.  For a `CreateUser` call by an admin caller with valid fields
and a not-yet-registered email, the stored role of the new user is `"admin"`
exactly when the request's role string equals `"admin"` and `"user"` for
every other requested role string. -/
theorem C9_create_user_role_coercion (db : DBState) (caller : User)
    (req : CreateUserRequest) (newID : String) (now : Nat)
    (hadmin : caller.role = "admin") (hemail : req.email ≠ "")
    (hpw : req.password ≠ "") (hfresh : db.GetUserByEmail req.email = none) :
    ∃ db', CreateUser db caller req newID now =
        .ok ({ success := true, userId := newID,
               message := "User created successfully" }, db') ∧
      (db'.GetUser newID).map User.role =
        some (if req.role = "admin" then "admin" else "user") := by
  refine ⟨db.StoreUser (newUserOf req newID now), ?_, ?_⟩
  · simp only [CreateUser, createUserStore, hfresh]
    rw [if_neg (by simp [hadmin]), if_neg (by simp [hemail, hpw])]
    rfl
  · show Option.map User.role
      ((db.StoreUser (newUserOf req newID now)).GetUser (newUserOf req newID now).id) = _
    rw [storeUser_getUser]
    rfl

/-- Witness for C9: a concrete admin caller creating a user with the
requested role `"superuser"` stores role `"user"`. -/
theorem C9_create_user_role_coercion_witness :
    ∃ db', CreateUser { users := [], rooms := [], msgs := [] } fxAdminCaller
        { email := "n@x", password := "pw", firstName := "N", role := "superuser" }
        "id9" 7 =
      .ok ({ success := true, userId := "id9",
             message := "User created successfully" }, db') ∧
      (db'.GetUser "id9").map User.role = some "user" := by
  have h := C9_create_user_role_coercion { users := [], rooms := [], msgs := [] }
    fxAdminCaller
    { email := "n@x", password := "pw", firstName := "N", role := "superuser" }
    "id9" 7 (by decide) (by decide) (by decide) (by decide)
  simpa using h

/-- `StoreRoom` touches only the rooms table: the users are unchanged. -/
theorem storeRoom_users (db : DBState) (r : Room) :
    (db.StoreRoom r).users = db.users := by
  unfold DBState.StoreRoom
  split <;> rfl

/-- `GetUserByEmail` reads only the users table. -/
theorem getUserByEmail_congr (db1 db2 : DBState) (e : String)
    (h : db1.users = db2.users) :
    db1.GetUserByEmail e = db2.GetUserByEmail e := by
  unfold DBState.GetUserByEmail DBState.GetUser
  rw [h]

/-- After `StoreRoom`, the metadata lookup for the stored id finds the stored
metadata row. -/
theorem storeRoom_find (db : DBState) (r : Room) :
    (db.StoreRoom r).rooms.find? (fun v => v.id = r.id) =
      some { id := r.id, name := r.name, maxMessages := r.maxMessages } := by
  unfold DBState.StoreRoom
  split
  · next h =>
    simp only [List.any_eq_true, decide_eq_true_eq] at h
    exact find?_map_upsert RoomMeta.id r.id db.rooms
      { id := r.id, name := r.name, maxMessages := r.maxMessages } rfl h
  · next h =>
    simp only
    rw [List.find?_append]
    have hnone : db.rooms.find? (fun v => v.id = r.id) = none := by
      rw [List.find?_eq_none.mpr]
      intro v hv
      simp only [decide_eq_true_eq]
      intro hid
      exact h (List.any_eq_true.mpr ⟨v, hv, by simpa using hid⟩)
    simp [hnone, List.find?_cons]

/-- After `StoreRoom`, `GetRoom` of the stored id succeeds. -/
theorem getRoom_storeRoom_isSome (db : DBState) (r : Room) :
    ((db.StoreRoom r).GetRoom r.id).isSome := by
  unfold DBState.GetRoom
  rw [storeRoom_find]
  rfl

/-- Claim C10.  A `JoinRoom` request whose email matches no stored user still
returns `success = true` with the room's id (upserting the room when it is
absent), and the users table is untouched: no user record is created or
modified. -/
theorem C10_join_room_unknown_email (db : DBState) (req : JoinRoomRequest)
    (huser : db.GetUserByEmail req.email = none) :
    ∃ resp db', JoinRoom db req = .ok (resp, db') ∧
      resp.success = true ∧ resp.roomId = req.roomName ∧
      resp.name = ((db.GetRoom req.roomName).map Room.name).getD req.roomName ∧
      resp.history
        = ((db.GetRoom req.roomName).map Room.messages).getD [] ∧
      db'.users = db.users ∧ (db'.GetRoom req.roomName).isSome := by
  cases hroom : db.GetRoom req.roomName with
  | some room =>
    have hid : room.id = req.roomName := by
      unfold DBState.GetRoom at hroom
      cases hfind : db.rooms.find? (fun r => r.id = req.roomName) with
      | none => rw [hfind] at hroom; exact absurd hroom (by simp)
      | some meta =>
        rw [hfind] at hroom
        have hm := List.find?_some hfind
        simp only [decide_eq_true_eq] at hm
        cases hroom
        exact hm
    refine ⟨⟨room.id, room.name, true, room.messages⟩, db, ?_, rfl, hid,
      by simp [hroom], by simp [hroom], rfl, by simp [hroom]⟩
    simp only [JoinRoom, hroom, huser]
  | none =>
    have husers : (db.StoreRoom
        { id := req.roomName, name := req.roomName, maxMessages := 1000,
          messages := [] }).users = db.users :=
      storeRoom_users db _
    have huser2 : (db.StoreRoom
        { id := req.roomName, name := req.roomName, maxMessages := 1000,
          messages := [] }).GetUserByEmail req.email = none := by
      rw [getUserByEmail_congr _ db _ husers]
      exact huser
    refine ⟨⟨req.roomName, req.roomName, true, []⟩, _, ?_, rfl, rfl,
      by simp [hroom], by simp [hroom], husers, ?_⟩
    · simp only [JoinRoom, hroom, huser2]
    · exact getRoom_storeRoom_isSome db _

/-- Witness for C10: joining a fresh room under an email unknown to the store
succeeds, creates the room, and leaves the users table untouched. -/
theorem C10_join_room_unknown_email_witness :
    ∃ resp db', JoinRoom fxGoodDb { email := "ghost@x", roomName := "r7" }
        = .ok (resp, db') ∧
      resp.success = true ∧ resp.roomId = "r7" ∧ resp.name = "r7" ∧
      resp.history = [] ∧
      db'.users = fxGoodDb.users ∧ (db'.GetRoom "r7").isSome := by
  have h := C10_join_room_unknown_email fxGoodDb
    { email := "ghost@x", roomName := "r7" } (by decide)
  simpa using h

/-- The `JoinRoom` history update keeps the history duplicate-free. -/
theorem joinRoomHistory_nodup (h : List String) (r : String) (hnd : h.Nodup) :
    (joinRoomHistory h r).Nodup := by
  unfold joinRoomHistory
  rw [List.nodup_append]
  refine ⟨hnd.filter _, List.nodup_singleton r, ?_⟩
  intro a ha hb
  have h2 := (List.mem_filter.mp ha).2
  simp only [decide_eq_true_eq] at h2
  simp only [List.mem_singleton] at hb
  exact h2 hb

/-- The `JoinRoom` history update puts the joined room last. -/
theorem joinRoomHistory_getLast (h : List String) (r : String) :
    (joinRoomHistory h r).getLast? = some r := by
  simp [joinRoomHistory]

/-- Any sequence of `JoinRoom` history updates preserves freedom from
duplicates. -/
theorem foldl_joinRoomHistory_nodup (rooms : List String) (h0 : List String)
    (hnd : h0.Nodup) : (rooms.foldl joinRoomHistory h0).Nodup := by
  induction rooms generalizing h0 with
  | nil => exact hnd
  | cons a rest ih => exact ih _ (joinRoomHistory_nodup h0 a hnd)

/-- After a nonempty sequence of `JoinRoom` history updates the last history
entry is the last room joined. -/
theorem foldl_joinRoomHistory_getLast (rooms : List String) (h0 : List String)
    (r : String) (hr : rooms.getLast? = some r) :
    (rooms.foldl joinRoomHistory h0).getLast? = some r := by
  induction rooms generalizing h0 with
  | nil => simp at hr
  | cons a rest ih =>
    cases rest with
    | nil =>
      simp only [List.getLast?_singleton, Option.some.injEq] at hr
      subst hr
      exact joinRoomHistory_getLast h0 a
    | cons b rest' =>
      rw [List.getLast?_cons_cons] at hr
      exact ih (joinRoomHistory h0 a) hr

/-- Claim C3, counterexample.  Starting from an empty history, eleven
`JoinRoom` calls on eleven distinct rooms (through the full `JoinRoom`
handler, store updates included) leave the user's history with length 11:
the code has no cap, so `|history| ≤ 10` fails. -/
theorem C3_history_cap_counterexample :
    ((joinSeq fxGoodDb "e" fxElevenRooms).GetUserByEmail "e").map
        (fun u => u.history.length) = some 11 ∧ ¬ ((11 : Nat) ≤ 10) :=
  ⟨by decide, by decide⟩

/-- Claim C3, amended.  For every user and every sequence of `JoinRoom`
calls, the history contains no duplicates (starting from a duplicate-free
history, as created empty) and immediately after `JoinRoom(u, r)` the last
element of the history is `r`; the length, however, is not capped at 10 — it
grows up to the number of distinct rooms ever joined. -/
theorem C3_history_invariant (h0 : List String) (rooms : List String)
    (hnd : h0.Nodup) :
    (rooms.foldl joinRoomHistory h0).Nodup ∧
    ∀ r, rooms.getLast? = some r →
      (rooms.foldl joinRoomHistory h0).getLast? = some r :=
  ⟨foldl_joinRoomHistory_nodup rooms h0 hnd,
   fun r hr => foldl_joinRoomHistory_getLast rooms h0 r hr⟩

/-- Witness for C3's amended theorem: a concrete three-join sequence with a
re-join stays duplicate-free and ends with the room joined last. -/
theorem C3_history_invariant_witness :
    (["a", "b", "a"].foldl joinRoomHistory []).Nodup ∧
    (["a", "b", "a"].foldl joinRoomHistory []).getLast? = some "a" :=
  ⟨(C3_history_invariant [] ["a", "b", "a"] (by decide)).1,
   (C3_history_invariant [] ["a", "b", "a"] (by decide)).2 "a" (by decide)⟩

/-! ### Pruning: the bounded-retention characterisation (claim C7) -/

/-- The `ORDER BY id DESC` enumeration is sorted descending by id. -/
theorem sortRowsDesc_sorted (rows : List MsgRow) :
    List.Sorted (fun a b => b.id ≤ a.id) (sortRowsDesc rows) :=
  List.sorted_insertionSort _ rows

/-- Sorting permutes the rows. -/
theorem sortRowsDesc_perm (rows : List MsgRow) :
    (sortRowsDesc rows).Perm rows :=
  List.perm_insertionSort _ rows

/-- The rows of the pruned room that survive `pruneRoom` are exactly the
room's rows whose id is in the kept-id set. -/
theorem pruneRoom_filter_self (t : List MsgRow) (room : String) (keep : Nat) :
    (pruneRoom t room keep).filter (fun r => r.body.roomID = room)
      = (t.filter (fun r => r.body.roomID = room)).filter
          (fun r => r.id ∈ keptIds t room keep) := by
  unfold pruneRoom
  rw [List.filter_filter, List.filter_filter]
  apply List.filter_congr
  intro r _
  by_cases h1 : r.body.roomID = room <;>
    by_cases h2 : r.id ∈ keptIds t room keep <;> simp [h1, h2]

/-- Pruning one room leaves every other room's rows untouched. -/
theorem pruneRoom_filter_other (t : List MsgRow) (r : String) (keep : Nat)
    (room : String) (hne : r ≠ room) :
    (pruneRoom t r keep).filter (fun x => x.body.roomID = room)
      = t.filter (fun x => x.body.roomID = room) := by
  unfold pruneRoom
  rw [List.filter_filter]
  apply List.filter_congr
  intro x _
  by_cases h1 : x.body.roomID = room
  · have hne' : ¬ room = r := fun hh => hne hh.symm
    simp [h1, hne']
  · simp [h1]

/-- The kept-id subquery depends only on the room's own rows. -/
theorem keptIds_congr (t t' : List MsgRow) (room : String) (keep : Nat)
    (h : t.filter (fun r => r.body.roomID = room)
      = t'.filter (fun r => r.body.roomID = room)) :
    keptIds t room keep = keptIds t' room keep := by
  unfold keptIds
  rw [h]

/-- A prune pass over rooms not containing `room` leaves `room`'s rows
unchanged, whatever per-room statements fail. -/
theorem foldPrune_other (fails : String → Bool) (keep : Nat) (room : String)
    (L : List String) (t : List MsgRow) (hnot : room ∉ L) :
    ((L.foldl (fun t' r => if fails r then t' else pruneRoom t' r keep) t).filter
      (fun x => x.body.roomID = room))
      = t.filter (fun x => x.body.roomID = room) := by
  induction L generalizing t with
  | nil => rfl
  | cons r0 rest ih =>
    have hr0 : r0 ≠ room := fun hh => hnot (hh ▸ List.mem_cons_self r0 rest)
    have hrest : room ∉ rest := fun hh => hnot (List.mem_cons_of_mem r0 hh)
    rw [List.foldl_cons]
    by_cases hf : fails r0
    · rw [if_pos hf]
      exact ih t hrest
    · rw [if_neg hf, ih _ hrest, pruneRoom_filter_other t r0 keep room hr0]

/-- A prune pass over a duplicate-free room list containing `room`, whose
statement for `room` does not fail, leaves for `room` exactly its rows with
kept ids — regardless of which other rooms' statements fail. -/
theorem foldPrune_mem (fails : String → Bool) (keep : Nat) (room : String)
    (L : List String) (t : List MsgRow) (hmem : room ∈ L) (hnd : L.Nodup)
    (hfail : fails room = false) :
    ((L.foldl (fun t' r => if fails r then t' else pruneRoom t' r keep) t).filter
      (fun x => x.body.roomID = room))
      = (t.filter (fun x => x.body.roomID = room)).filter
          (fun r => r.id ∈ keptIds t room keep) := by
  induction L generalizing t with
  | nil => simp at hmem
  | cons r0 rest ih =>
    rw [List.foldl_cons]
    by_cases hr0 : r0 = room
    · subst hr0
      rw [if_neg (by simp [hfail])]
      have hnotrest : r0 ∉ rest := (List.nodup_cons.mp hnd).1
      rw [foldPrune_other fails keep r0 rest _ hnotrest]
      exact pruneRoom_filter_self t r0 keep
    · have hmem' : room ∈ rest := by
        rcases List.mem_cons.mp hmem with hh | hh
        · exact absurd hh.symm hr0
        · exact hh
      have hnd' : rest.Nodup := (List.nodup_cons.mp hnd).2
      by_cases hf : fails r0
      · rw [if_pos hf]
        exact ih t hmem' hnd'
      · rw [if_neg hf]
        have hframe := pruneRoom_filter_other t r0 keep room
          (fun hh => hr0 hh)
        rw [ih _ hmem' hnd', hframe,
          keptIds_congr (pruneRoom t r0 keep) t room keep hframe]

/-- Filtering a split list by membership of the id in `K` keeps exactly the
left part when the left ids all lie in `K` and the right ids all avoid it. -/
theorem filter_memK_append (u v : List MsgRow) (K : List Nat)
    (hu : ∀ x ∈ u, x.id ∈ K) (hv : ∀ x ∈ v, x.id ∉ K) :
    (u ++ v).filter (fun r => r.id ∈ K) = u := by
  rw [List.filter_append]
  rw [List.filter_eq_self.mpr (fun x hx => by simpa using hu x hx)]
  rw [List.filter_eq_nil_iff.mpr (fun x hx => by simpa using hv x hx)]
  exact List.append_nil u

/-- On a list with duplicate-free ids, keeping the rows whose id lies among
the first `keep` ids is the same as taking the first `keep` rows. -/
theorem sorted_take_filter (s : List MsgRow) (keep : Nat)
    (hnd : (s.map MsgRow.id).Nodup) :
    s.filter (fun r => r.id ∈ (s.take keep).map MsgRow.id) = s.take keep := by
  have hsplit : s = s.take keep ++ s.drop keep :=
    (List.take_append_drop keep s).symm
  have hdisj : List.Disjoint ((s.take keep).map MsgRow.id)
      ((s.drop keep).map MsgRow.id) := by
    apply List.disjoint_of_nodup_append
    rw [← List.map_append, List.take_append_drop]
    exact hnd
  have h1 : s.filter (fun r => r.id ∈ (s.take keep).map MsgRow.id)
      = (s.take keep ++ s.drop keep).filter
          (fun r => r.id ∈ (s.take keep).map MsgRow.id) :=
    congrArg _ hsplit
  rw [h1]
  apply filter_memK_append
  · intro x hx
    exact List.mem_map_of_mem MsgRow.id hx
  · intro x hx hmem
    exact hdisj hmem (List.mem_map_of_mem MsgRow.id hx)

/-- Claim C7.  For every messages table with duplicate-free insertion ids and
every room holding `N > keep` messages whose per-room `DELETE` does not fail,
after `PruneMessages(keep)` exactly `keep` messages of that room remain, and
they are the ones with the largest insertion ids (every surviving id exceeds
every deleted id of the room) — by insertion id, not by client timestamp.
The failure function `fails` is arbitrary on every other room: a failure
elsewhere does not abort the pass for this room. -/
theorem C7_prune_keeps_newest (table : List MsgRow) (keep : Nat)
    (room : String) (fails : String → Bool)
    (hfail : fails room = false)
    (hnodup : (table.map MsgRow.id).Nodup)
    (hcount : keep < (table.filter (fun r => r.body.roomID = room)).length) :
    ((PruneMessages table keep fails).filter
        (fun r => r.body.roomID = room)).length = keep ∧
    ∀ a ∈ (PruneMessages table keep fails).filter
        (fun r => r.body.roomID = room),
      ∀ b ∈ table.filter (fun r => r.body.roomID = room),
        b ∉ (PruneMessages table keep fails).filter
          (fun r => r.body.roomID = room) →
        b.id < a.id := by
  set l := table.filter (fun r => r.body.roomID = room) with hl
  set s := sortRowsDesc l with hs
  have hroomMem : room ∈ distinctRooms table := by
    have hlen : 0 < l.length := lt_of_le_of_lt (Nat.zero_le keep) hcount
    obtain ⟨x, hx⟩ := List.exists_mem_of_length_pos hlen
    have hx2 := List.mem_filter.mp hx
    unfold distinctRooms
    rw [List.mem_dedup]
    exact List.mem_map.mpr ⟨x, hx2.1, by simpa using hx2.2⟩
  have hafter : (PruneMessages table keep fails).filter
      (fun r => r.body.roomID = room)
      = l.filter (fun r => r.id ∈ keptIds table room keep) := by
    unfold PruneMessages
    exact foldPrune_mem fails keep room (distinctRooms table) table hroomMem
      (List.nodup_dedup _) hfail
  have hlnodup : (l.map MsgRow.id).Nodup := by
    have hsub : List.Sublist (l.map MsgRow.id) (table.map MsgRow.id) :=
      (List.filter_sublist table).map MsgRow.id
    exact hnodup.sublist hsub
  have hpermS : s.Perm l := sortRowsDesc_perm l
  have hsnodup : (s.map MsgRow.id).Nodup := by
    have hp2 : (s.map MsgRow.id).Perm (l.map MsgRow.id) := hpermS.map _
    exact hp2.nodup_iff.mpr hlnodup
  have hK : keptIds table room keep = (s.take keep).map MsgRow.id := rfl
  have hfilter_s : s.filter (fun r => r.id ∈ keptIds table room keep)
      = s.take keep := by
    rw [hK]
    exact sorted_take_filter s keep hsnodup
  have hpermF : (l.filter (fun r => r.id ∈ keptIds table room keep)).Perm
      (s.take keep) := by
    rw [← hfilter_s]
    exact (hpermS.filter _).symm
  constructor
  · rw [hafter, hpermF.length_eq, List.length_take]
    exact Nat.min_eq_left
      (le_of_lt (by rw [← hpermS.length_eq] at hcount; exact hcount))
  · intro a ha b hb hbnot
    rw [hafter] at ha hbnot
    have haTake : a ∈ s.take keep := hpermF.mem_iff.mp ha
    have hbS : b ∈ s := hpermS.mem_iff.mpr hb
    have hbDrop : b ∈ s.drop keep := by
      rcases List.mem_append.mp
        (by rw [List.take_append_drop] ; exact hbS :
          b ∈ s.take keep ++ s.drop keep) with hT | hD
      · exfalso
        apply hbnot
        apply List.mem_filter.mpr
        refine ⟨hb, ?_⟩
        simp only [decide_eq_true_eq, hK]
        exact List.mem_map_of_mem MsgRow.id hT
      · exact hD
    have hle : b.id ≤ a.id :=
      (sortRowsDesc_sorted l).rel_of_mem_take_of_mem_drop haTake hbDrop
    have hne : a.id ≠ b.id := by
      intro heq
      have haS : a ∈ s := List.mem_of_mem_take haTake
      have hab : a = b := List.inj_on_of_nodup_map hsnodup haS hbS heq
      subst hab
      apply hbnot
      apply List.mem_filter.mpr
      refine ⟨hb, ?_⟩
      simp only [decide_eq_true_eq, hK]
      exact List.mem_map_of_mem MsgRow.id haTake
    exact Nat.lt_of_le_of_ne hle (fun hh => hne hh.symm)

/-- Witness for C7: pruning a four-row table (three rows in room `"r"`, one
in room `"q"` whose statement fails) down to `keep = 2` leaves exactly two
rows in `"r"`, and the dropped row's id 1 is below the surviving id 3. -/
theorem C7_prune_keeps_newest_witness :
    ((PruneMessages [mkRow 1 "r", mkRow 5 "q", mkRow 2 "r", mkRow 3 "r"] 2
        (fun sName => sName = "q")).filter
      (fun r => r.body.roomID = "r")).length = 2 ∧
    (mkRow 1 "r").id < (mkRow 3 "r").id :=
  ⟨(C7_prune_keeps_newest [mkRow 1 "r", mkRow 5 "q", mkRow 2 "r", mkRow 3 "r"]
      2 "r" (fun sName => sName = "q") (by decide) (by decide) (by decide)).1,
   (C7_prune_keeps_newest [mkRow 1 "r", mkRow 5 "q", mkRow 2 "r", mkRow 3 "r"]
      2 "r" (fun sName => sName = "q") (by decide) (by decide) (by decide)).2
     (mkRow 3 "r") (by decide) (mkRow 1 "r") (by decide) (by decide)⟩

end Squall
